import Mathlib

/-!
Shallow embedding of the pyipay payment-gateway client
(`src/pyipay/util.py`, `src/pyipay/pyipay.py`, `src/pyipay/exceptions.py`).

Modelling conventions:

* Python `str` and `bytes` values are represented by their byte sequences
  (`List Nat`, each element `< 256`); for the ASCII literals appearing in
  the source, `asciiBytes` produces exactly the UTF-8 bytes of the string.
  The `str.encode("utf-8")` / `bytes.decode("utf-8")` boundary is therefore
  the identity in the model.
* Python exceptions become the `PyError` sum type and fallible code returns
  `Except PyError _`.  The constructor names record the concrete Python
  exception class raised by the source (`AttributeError`, `KeyError`,
  `TypeError`, `ValueError`, `binascii.Error`) or by `pyipay.exceptions`
  (`InvalidUrl`, `InvalidGatewayResponse`).
* The AES block permutation itself lives in the external `Cryptodome`
  library; it is modelled as an abstract `BlockCipher` (a keyed pair of
  maps on 16-byte blocks).  Everything the repository composes around it -
  the key/IV validity checks of `AES.new`, PKCS#7 padding, CBC chaining
  with the key reused as IV, and the hex wire format - is embedded
  concretely, following the pycryptodome semantics the source relies on.
-/

namespace PyIPay

/-- UTF-8 bytes of an ASCII string literal (each `Char.toNat < 128`). -/
def asciiBytes (s : String) : List Nat := s.data.map Char.toNat

/-- Python exceptions raised (directly or via libraries) by the source. -/
inductive PyError where
  | valueError (msg : List Nat)
  | typeError (msg : List Nat)
  | attributeError (msg : List Nat)
  | keyError (key : List Nat)
  | binasciiError (msg : List Nat)
  | invalidUrl (msg : List Nat)
  | invalidGatewayResponse (msg : List Nat)
  deriving DecidableEq

/-! ### Hex wire format (`binascii.hexlify` / `binascii.unhexlify`) -/

/-- Lower-case hex digit of a nibble, as `binascii.hexlify` emits. -/
def hexDigit (n : Nat) : Nat := if n < 10 then 48 + n else 87 + n

/-- Numeric value of an ASCII hex digit, accepting both cases. -/
def hexVal (c : Nat) : Option Nat :=
  if 48 ≤ c ∧ c ≤ 57 then some (c - 48)
  else if 97 ≤ c ∧ c ≤ 102 then some (c - 87)
  else if 65 ≤ c ∧ c ≤ 70 then some (c - 55)
  else none

/-- `binascii.hexlify`: two lower-case hex characters per byte. -/
def hexlify (l : List Nat) : List Nat :=
  l.foldr (fun b acc => hexDigit (b / 16) :: hexDigit (b % 16) :: acc) []

/-- Decode consecutive hex-digit pairs. -/
def unhexPairs : List Nat → Except PyError (List Nat)
  | [] => .ok []
  | [_] => .error (.binasciiError (asciiBytes "Odd-length string"))
  | a :: b :: rest =>
    match hexVal a, hexVal b with
    | some x, some y => (unhexPairs rest).map fun t => (16 * x + y) :: t
    | _, _ => .error (.binasciiError (asciiBytes "Non-hexadecimal digit found"))

/-- `binascii.unhexlify`: rejects odd-length input, then decodes pairs. -/
def unhexlify (l : List Nat) : Except PyError (List Nat) :=
  if l.length % 2 = 1 then .error (.binasciiError (asciiBytes "Odd-length string"))
  else unhexPairs l

/-! ### PKCS#7 padding (`Cryptodome.Util.Padding`, style pkcs7) -/

/-- `Padding.pad(data, 16)`: append `n = 16 - len % 16` bytes of value `n`. -/
def padB (data : List Nat) (bs : Nat) : List Nat :=
  data ++ List.replicate (bs - data.length % bs) (bs - data.length % bs)

/-- `Padding.unpad(data, 16)` with pycryptodome checks: non-empty input of
block-aligned length, last byte `n` with `1 ≤ n ≤ min bs len`, and a tail of
`n` copies of `n`; strips the tail on success. -/
def unpadB (data : List Nat) (bs : Nat) : Except PyError (List Nat) :=
  if data.length = 0 then
    .error (.valueError (asciiBytes "Zero-length input cannot be unpadded"))
  else if data.length % bs ≠ 0 then
    .error (.valueError (asciiBytes "Input data is not padded"))
  else
    let n := data.getLastD 0
    if n < 1 ∨ n > min bs data.length then
      .error (.valueError (asciiBytes "Padding is incorrect."))
    else if data.drop (data.length - n) ≠ List.replicate n n then
      .error (.valueError (asciiBytes "PKCS#7 padding is incorrect."))
    else .ok (data.take (data.length - n))

/-! ### AES-CBC with the key reused as IV (`AES.new(key, AES.MODE_CBC, iv=key)`) -/

/-- Abstract keyed 16-byte block permutation standing for the external AES
primitive; `encB`/`decB` receive the key bytes and one block. -/
structure BlockCipher where
  encB : List Nat → List Nat → List Nat
  decB : List Nat → List Nat → List Nat

/-- Trivial block-cipher instance (identity on blocks), used to exercise the
pipeline on concrete inputs. -/
def idCipher : BlockCipher := ⟨fun _ b => b, fun _ b => b⟩

/-- Key/IV validation performed by `AES.new(key, AES.MODE_CBC, iv=key)`:
AES accepts 16/24/32-byte keys, and CBC then demands a 16-byte IV. -/
def aesNewCbc (keyLen ivLen : Nat) : Except PyError Unit :=
  if ¬ (keyLen = 16 ∨ keyLen = 24 ∨ keyLen = 32) then
    .error (.valueError (asciiBytes "Incorrect AES key length"))
  else if ivLen ≠ 16 then
    .error (.valueError (asciiBytes "Incorrect IV length (it must be 16 bytes long)"))
  else .ok ()

/-- Bytewise xor of two blocks. -/
def xorB (a b : List Nat) : List Nat := List.zipWith (fun x y => x ^^^ y) a b

/-- Split into 16-byte chunks, with explicit fuel for structural recursion. -/
def toBlocksF : Nat → List Nat → List (List Nat)
  | _, [] => []
  | 0, _ :: _ => []
  | fuel + 1, a :: l => (a :: l).take 16 :: toBlocksF fuel ((a :: l).drop 16)

/-- Split a byte list into consecutive 16-byte chunks. -/
def toBlocks (l : List Nat) : List (List Nat) := toBlocksF l.length l

/-- CBC chaining on a block list: each ciphertext block feeds the next xor. -/
def cbcEncAux (bc : BlockCipher) (key : List Nat) : List Nat → List (List Nat) → List (List Nat)
  | _, [] => []
  | prev, b :: bs =>
    let c := bc.encB key (xorB prev b)
    c :: cbcEncAux bc key c bs

/-- CBC decryption on a block list. -/
def cbcDecAux (bc : BlockCipher) (key : List Nat) : List Nat → List (List Nat) → List (List Nat)
  | _, [] => []
  | prev, c :: cs => xorB prev (bc.decB key c) :: cbcDecAux bc key c cs

/-- `cipher.encrypt` in CBC mode: input must be block-aligned. -/
def cbcEncrypt (bc : BlockCipher) (key iv data : List Nat) : Except PyError (List Nat) :=
  if data.length % 16 ≠ 0 then
    .error (.valueError (asciiBytes "Data must be padded to 16 byte boundary in CBC mode"))
  else .ok (List.flatten (cbcEncAux bc key iv (toBlocks data)))

/-- `cipher.decrypt` in CBC mode: input must be block-aligned. -/
def cbcDecrypt (bc : BlockCipher) (key iv data : List Nat) : Except PyError (List Nat) :=
  if data.length % 16 ≠ 0 then
    .error (.valueError (asciiBytes "Data must be padded to 16 byte boundary in CBC mode"))
  else .ok (List.flatten (cbcDecAux bc key iv (toBlocks data)))

/-- `util.encrypt_payload(plain_text, key)`: build `AES.new(key, MODE_CBC,
iv=key)`, PKCS#7-pad the plaintext to 16 bytes, CBC-encrypt, hex-encode. -/
def encrypt_payload (bc : BlockCipher) (plain_text key : List Nat) :
    Except PyError (List Nat) := do
  aesNewCbc key.length key.length
  let ct ← cbcEncrypt bc key key (padB plain_text 16)
  pure (hexlify ct)

/-- `util.decrypt_payload(encrypted_text, key)`: hex-decode, build the same
key-as-IV cipher, CBC-decrypt, strip PKCS#7 padding. -/
def decrypt_payload (bc : BlockCipher) (encrypted_text key : List Nat) :
    Except PyError (List Nat) := do
  let raw ← unhexlify encrypted_text
  aesNewCbc key.length key.length
  let pt ← cbcDecrypt bc key key raw
  unpadB pt 16

/-! ### `util.sanitize` and `util.FILTER_CHARS` -/

/-- `util.FILTER_CHARS`, the byte values of
the Python literal holding the denylist punctuation characters. -/
def FILTER_CHARS : List Nat :=
  [33, 35, 36, 37, 94, 38, 42, 40, 41, 43, 91, 93, 92, 39, 59, 44,
   123, 125, 124, 34, 58, 60, 62, 63, 126, 96]

/-- Bytes removed by `str.strip()` (ASCII whitespace). -/
def isSpaceB (c : Nat) : Bool := c = 32 ∨ c = 9 ∨ c = 10 ∨ c = 11 ∨ c = 12 ∨ c = 13

/-- `str.strip()`: drop leading and trailing whitespace. -/
def stripB (s : List Nat) : List Nat :=
  ((s.dropWhile isSpaceB).reverse.dropWhile isSpaceB).reverse

/-- Two-argument `str.translate(None, delete)` call.  That calling
convention is Python 2's; in Python 3 (which this repository targets -
it uses f-strings) `str.translate` accepts exactly one argument, so the
call raises `TypeError` unconditionally. -/
def strTranslate2 (s : List Nat) (table : Option Unit) (delete : List Nat) :
    Except PyError (List Nat) :=
  match s, table, delete with
  | _, _, _ => .error (.typeError (asciiBytes "translate() takes exactly one argument (2 given)"))

/-- `util.sanitize(text)`: `text.strip().translate(None, FILTER_CHARS)`. -/
def sanitize (text : List Nat) : Except PyError (List Nat) :=
  strTranslate2 (stripB text) none FILTER_CHARS

/-! ### `urllib.parse.urlparse` (scheme / netloc / query / fragment) -/

/-- ASCII letter. -/
def isAlphaB (c : Nat) : Bool := (65 ≤ c ∧ c ≤ 90) ∨ (97 ≤ c ∧ c ≤ 122)

/-- Characters permitted after the first letter of a URL scheme. -/
def isSchemeChar (c : Nat) : Bool :=
  isAlphaB c ∨ (48 ≤ c ∧ c ≤ 57) ∨ c = 43 ∨ c = 45 ∨ c = 46

/-- ASCII lower-casing of one byte. -/
def toLowerB (c : Nat) : Nat := if 65 ≤ c ∧ c ≤ 90 then c + 32 else c

/-- Split a byte list at the first occurrence of `sep`, if any. -/
def splitFirst (sep : Nat) : List Nat → Option (List Nat × List Nat)
  | [] => none
  | c :: rest =>
    if c = sep then some ([], rest)
    else (splitFirst sep rest).map fun p => (c :: p.1, p.2)

/-- Scheme extraction of `urlsplit`: the text before the first `:` is a
scheme when it is non-empty, starts with an ASCII letter, and continues
with scheme characters; the scheme is lower-cased. -/
def splitScheme (url : List Nat) : List Nat × List Nat :=
  match splitFirst 58 url with
  | none => ([], url)
  | some (before, after) =>
    if before ≠ [] ∧ isAlphaB (before.headD 0) ∧ before.tail.all isSchemeChar then
      (before.map toLowerB, after)
    else ([], url)

/-- `_splitnetloc`: the authority runs until the first `/`, `?` or `#`. -/
def splitNetloc (url2 : List Nat) : List Nat × List Nat :=
  (url2.takeWhile fun c => ¬ (c = 47 ∨ c = 63 ∨ c = 35),
   url2.dropWhile fun c => ¬ (c = 47 ∨ c = 63 ∨ c = 35))

/-- Result record of `urllib.parse.urlparse` (the fields the source reads). -/
structure SplitResult where
  scheme : List Nat
  netloc : List Nat
  path : List Nat
  query : List Nat
  fragment : List Nat
  deriving DecidableEq

/-- Fragment (split at the first `#`) and query (split at the first `?`)
extraction, performed in that order as in CPython. -/
def finishSplit (scheme netloc u2 : List Nat) : SplitResult :=
  let p1 := match splitFirst 35 u2 with
    | none => (u2, [])
    | some p => p
  let p2 := match splitFirst 63 p1.1 with
    | none => (p1.1, [])
    | some p => p
  ⟨scheme, netloc, p2.1, p2.2, p1.2⟩

/-- `urllib.parse.urlparse` on the fields the source uses: strips ASCII
tab/newline bytes, extracts the scheme, parses the `//`-authority - failing
with `ValueError` when it contains `[` or `]` unbalanced - then splits off
fragment and query.  The Unicode NFKC guard `_checknetloc`, which can never
fire on ASCII input, is not modelled: the embedding represents ASCII
Python strings. -/
def urlsplitB (url0 : List Nat) : Except PyError SplitResult :=
  let url := url0.filter fun c => ¬ (c = 9 ∨ c = 10 ∨ c = 13)
  let sp := splitScheme url
  if sp.2.take 2 = [47, 47] then
    let np := splitNetloc (sp.2.drop 2)
    if (91 ∈ np.1 ∧ 93 ∉ np.1) ∨ (93 ∈ np.1 ∧ 91 ∉ np.1) then
      .error (.valueError (asciiBytes "Invalid IPv6 URL"))
    else .ok (finishSplit sp.1 np.1 np.2)
  else .ok (finishSplit sp.1 [] sp.2)

/-- `util.validate_gw_url(s)`: parse, demand an http/https scheme, demand an
empty query string, and return the input unchanged. -/
def validate_gw_url (s : List Nat) : Except PyError (List Nat) :=
  match urlsplitB s with
  | .error e => .error e
  | .ok u =>
    if u.scheme = asciiBytes "http" ∨ u.scheme = asciiBytes "https" then
      if u.query = [] then .ok s
      else .error (.invalidUrl (asciiBytes "URL cannot have a query string"))
    else .error (.invalidUrl (asciiBytes "Scheme should be http or https"))

/-! ### `urllib.parse.parse_qs` / `parse_qsl` -/

/-- Split at every occurrence of `sep` (CPython `str.split(sep)`). -/
def splitOnB (sep : Nat) : List Nat → List (List Nat)
  | [] => [[]]
  | c :: cs =>
    let r := splitOnB sep cs
    if c = sep then [] :: r
    else
      match r with
      | [] => [[c]]
      | h :: t => (c :: h) :: t

/-- Percent-decoding of `urllib.parse.unquote`: a `%` followed by two hex
digits becomes one byte; malformed escapes are kept verbatim. -/
def pctDecode : List Nat → List Nat
  | [] => []
  | 37 :: a :: b :: rest =>
    (match hexVal a, hexVal b with
     | some x, some y => (16 * x + y) :: pctDecode rest
     | _, _ => 37 :: pctDecode (a :: b :: rest))
  | c :: rest => c :: pctDecode rest

/-- `unquote_plus` as used by `parse_qsl`: `+` becomes a space, then
percent-escapes are decoded. -/
def unquotePlusB (s : List Nat) : List Nat :=
  pctDecode (s.map fun c => if c = 43 then 32 else c)

/-- `urllib.parse.parse_qsl` with its defaults (`keep_blank_values=False`,
separator `&`): empty chunks, chunks without `=`, and chunks with an empty
value are dropped; names and values are `unquote_plus`-decoded. -/
def parse_qsl (s : List Nat) : List (List Nat × List Nat) :=
  (splitOnB 38 s).filterMap fun nv =>
    if nv = [] then none
    else
      match splitFirst 61 nv with
      | none => none
      | some (name, value) =>
        if value = [] then none
        else some (unquotePlusB name, unquotePlusB value)

/-- First-match association-list lookup (Python `dict` access). -/
def lookupB {α : Type} : List (List Nat × α) → List Nat → Option α
  | [], _ => none
  | kv :: rest, k => if kv.1 = k then some kv.2 else lookupB rest k

/-- Append one value to a key's occurrence list, creating the key at the
end on first sight (Python dict insertion order). -/
def dictAppend (d : List (List Nat × List (List Nat))) (k v : List Nat) :
    List (List Nat × List (List Nat)) :=
  match d with
  | [] => [(k, [v])]
  | kv :: rest => if kv.1 = k then (kv.1, kv.2 ++ [v]) :: rest else kv :: dictAppend rest k v

/-- `urllib.parse.parse_qs`: group the `parse_qsl` pairs into per-name
occurrence lists. -/
def parse_qs (s : List Nat) : List (List Nat × List (List Nat)) :=
  (parse_qsl s).foldl (fun d kv => dictAppend d kv.1 kv.2) []

/-! ### `urllib.parse.urlencode(query, safe=":/")` -/

/-- Characters `quote` never escapes: ASCII letters, digits, `_.-~`. -/
def alwaysSafe (c : Nat) : Bool :=
  isAlphaB c ∨ (48 ≤ c ∧ c ≤ 57) ∨ c = 95 ∨ c = 46 ∨ c = 45 ∨ c = 126

/-- Upper-case hex digit, as `quote` emits in percent-escapes. -/
def hexDigitU (n : Nat) : Nat := if n < 10 then 48 + n else 55 + n

/-- `urllib.parse.quote(s, safe)` over bytes. -/
def quoteB (safe : List Nat) (s : List Nat) : List Nat :=
  s.foldr (fun c acc =>
    if alwaysSafe c ∨ c ∈ safe then c :: acc
    else 37 :: hexDigitU (c / 16) :: hexDigitU (c % 16) :: acc) []

/-- `urllib.parse.quote_plus(s, safe)`: when the string contains a space,
quote with space kept safe and then render spaces as `+`. -/
def quotePlusB (safe : List Nat) (s : List Nat) : List Nat :=
  if 32 ∈ s then (quoteB (32 :: safe) s).map fun c => if c = 32 then 43 else c
  else quoteB safe s

/-- Interleave `sep` between the elements of a list of byte strings. -/
def joinSep (sep : Nat) : List (List Nat) → List Nat
  | [] => []
  | [x] => x
  | x :: y :: rest => x ++ sep :: joinSep sep (y :: rest)

/-- `urllib.parse.urlencode(d, safe=":/")` with the default
`quote_via=quote_plus`. -/
def urlencodeB (params : List (List Nat × List Nat)) : List Nat :=
  joinSep 38 (params.map fun kv =>
    quotePlusB [58, 47] kv.1 ++ 61 :: quotePlusB [58, 47] kv.2)

/-! ### The `Gateway` class (`pyipay.py`) -/

/-- `util.Action` enumeration; `value` is the Python `Enum.value`. -/
inductive Action where
  | PURCHASE
  | REFUND
  | VOID
  | INQUIRY
  deriving DecidableEq

/-- `Action.value` (PURCHASE=1, REFUND=2, VOID=3, INQUIRY=8). -/
def Action.value : Action → Nat
  | .PURCHASE => 1
  | .REFUND => 2
  | .VOID => 3
  | .INQUIRY => 8

/-- Dynamic argument flowing into `_build_payload`: the source sometimes
hands it an `Action` member and sometimes a plain `int`. -/
inductive PyActionArg where
  | act (a : Action)
  | intArg (n : Nat)
  deriving DecidableEq

/-- Attribute access `arg.value`: succeeds on an `Action` member and
raises `AttributeError` on a Python `int`. -/
def PyActionArg.value : PyActionArg → Except PyError Nat
  | .act a => .ok a.value
  | .intArg _ =>
    .error (.attributeError (asciiBytes "\x27int\x27 object has no attribute \x27value\x27"))

/-- Instance state of `Gateway`.  `tracking_id`, `_response_url` and
`_error_url` are `Option`s: `none` stands for an attribute that is unset
(`tracking_id`) or holds Python `None` (the URLs).  String-valued numeric
fields (`currency`, `amount`) carry the decimal rendering that
`urlencode` would produce via `str`. -/
structure Gateway where
  lang : List Nat
  currency : List Nat
  amount : List Nat
  password : List Nat
  key : List Nat
  portal_id : List Nat
  pgw_url : List Nat
  tracking_id : Option (List Nat)
  udf1 : List Nat
  udf2 : List Nat
  udf3 : List Nat
  udf4 : List Nat
  udf5 : List Nat
  response_url : Option (List Nat)
  error_url : Option (List Nat)
  deriving DecidableEq

/-- `LANG_LOOKUP.get(lang, 'USA')` with `LANG_LOOKUP = {'en': 'USA', 'ar': 'ARA'}`. -/
def langLookup (lang : List Nat) : List Nat :=
  if lang = asciiBytes "en" then asciiBytes "USA"
  else if lang = asciiBytes "ar" then asciiBytes "ARA"
  else asciiBytes "USA"

/-- Dict access `d[k]`: `KeyError` on a missing key. -/
def dictGet {α : Type} (d : List (List Nat × α)) (k : List Nat) : Except PyError α :=
  match lookupB d k with
  | some v => .ok v
  | none => .error (.keyError k)

/-- Decimal rendering of a natural number, with fuel. -/
def natDecAux : Nat → Nat → List Nat
  | _, 0 => []
  | 0, _ + 1 => []
  | f + 1, n + 1 => natDecAux f ((n + 1) / 10) ++ [48 + (n + 1) % 10]

/-- Python `f"{now}"` for a non-negative integer. -/
def natToDecB (n : Nat) : List Nat := if n = 0 then [48] else natDecAux n n

/-- `Gateway.__init__` from the decrypted terminal document onward.  The
keystore / resource-file / zip / XML pipeline (`read_resource_file` and
`ET.fromstring`) and the `iso4217` currency lookup are external
collaborators; the constructor receives the parsed tag/value mapping
`terminal`, the already-looked-up `currencyNumber`, and the current Unix
time `now`.  It reads the four required tags (raising `KeyError` when one
is absent) and assigns `tracking_id` only when the argument is `None`. -/
def Gateway.init (now : Nat) (lang currencyNumber amount : List Nat)
    (terminal : List (List Nat × List Nat)) (tracking_id : Option (List Nat)) :
    Except PyError Gateway := do
  let lang' := langLookup lang
  let pw ← dictGet terminal (asciiBytes "password")
  let k ← dictGet terminal (asciiBytes "resourceKey")
  let pid ← dictGet terminal (asciiBytes "id")
  let wa ← dictGet terminal (asciiBytes "webaddress")
  let tid : Option (List Nat) :=
    match tracking_id with
    | none => some (natToDecB now)
    | some _ => none
  pure ⟨lang', currencyNumber, amount, pw, k, pid, wa, tid, [], [], [], [], [], none, none⟩

/-- Python truthiness of an optional string: `None` and `""` are falsy. -/
def truthyOpt : Option (List Nat) → Bool
  | none => false
  | some s => ¬ s = []

/-- Python `f"{x}"` on an optional string: `None` renders as `"None"`. -/
def pyStrOpt : Option (List Nat) → List Nat
  | none => asciiBytes "None"
  | some s => s

/-- `Gateway._build_param_dict(action)`: for the purchase action code the
ordered parameter list; reading `self.tracking_id` raises
`AttributeError` when the attribute was never assigned.  Values are
`Option`s so that the unset URLs can hold Python `None`. -/
def build_param_dict (g : Gateway) (action : Nat) :
    Except PyError (List (List Nat × Option (List Nat))) :=
  if action = 1 then
    match g.tracking_id with
    | none =>
      .error (.attributeError
        (asciiBytes "\x27Gateway\x27 object has no attribute \x27tracking_id\x27"))
    | some tid =>
      .ok [(asciiBytes "action", some (asciiBytes "1")),
           (asciiBytes "id", some g.portal_id),
           (asciiBytes "password", some g.password),
           (asciiBytes "langid", some g.lang),
           (asciiBytes "currencycode", some g.currency),
           (asciiBytes "trackid", some tid),
           (asciiBytes "amt", some g.amount),
           (asciiBytes "udf1", some g.udf1),
           (asciiBytes "udf2", some g.udf2),
           (asciiBytes "udf3", some g.udf3),
           (asciiBytes "udf4", some g.udf4),
           (asciiBytes "udf5", some g.udf5),
           (asciiBytes "responseURL", g.response_url),
           (asciiBytes "errorURL", g.error_url)]
  else .ok []

/-- `Gateway._build_payload(action)`: evaluates `action.value` (the
dynamic-attribute step), builds the parameter dict, drops falsy values,
URL-encodes with `:` and `/` kept safe, and encrypts with the terminal
resource key. -/
def build_payload (bc : BlockCipher) (g : Gateway) (action : PyActionArg) :
    Except PyError (List Nat) := do
  let av ← action.value
  let params ← build_param_dict g av
  let filtered := params.filterMap fun kv =>
    match kv.2 with
    | none => none
    | some v => if v = [] then none else some (kv.1, v)
  encrypt_payload bc (urlencodeB filtered) g.key

/-- `Gateway._get_redirect_url(action)`: the source passes `action.value`
(a plain `int`) to `_build_payload`, which will evaluate `.value` again;
on success it assembles the redirect URL string. -/
def get_redirect_url (bc : BlockCipher) (g : Gateway) (action : Action) :
    Except PyError (List Nat) :=
  (build_payload bc g (.intArg action.value)).map fun payload =>
    g.pgw_url ++ asciiBytes "/PaymentHTTP.htm?param=paymentInit&trandata=" ++ payload
      ++ asciiBytes "&tranportalId=" ++ g.portal_id
      ++ asciiBytes "&responseURL=" ++ pyStrOpt g.response_url
      ++ asciiBytes "&errorURL=" ++ pyStrOpt g.error_url

/-- Message of the error raised by the `check_if_set(['response_url',
'error_url'])` decorator. -/
def precondMsg : List Nat :=
  asciiBytes "response_url,error_url must be set before generate_purchase_request can be called"

/-- `Gateway.generate_purchase_request()` as wrapped by `check_if_set`:
when both URLs are truthy the wrapped body runs but its return value is
discarded by the decorator (which calls `f` without returning it), so a
completed call yields Python `None`; otherwise the decorator raises
`AttributeError` naming the required properties. -/
def generate_purchase_request (bc : BlockCipher) (g : Gateway) :
    Except PyError (Option (List Nat)) :=
  if truthyOpt g.response_url ∧ truthyOpt g.error_url then
    (get_redirect_url bc g .PURCHASE).map fun _ => none
  else .error (.attributeError precondMsg)

/-- State-transformer view of `generate_purchase_request`: the method body
contains no attribute assignment, so the post-call instance equals the
input instance. -/
def generate_purchase_request_st (bc : BlockCipher) (g : Gateway) :
    Gateway × Except PyError (Option (List Nat)) :=
  (g, generate_purchase_request bc g)

/-- Remove a key (Python `dict.pop`), keeping the order of the others. -/
def removeKey {α : Type} (d : List (List Nat × α)) (k : List Nat) :
    List (List Nat × α) :=
  d.filter fun kv => ¬ kv.1 = k

/-- `Gateway._parse_response(raw_response)`: parse the callback query
string, pop `trandata` (failing with `InvalidGatewayResponse` when it is
absent), decrypt its first value with the resource key, and parse the
plaintext as a query string as well. -/
def parse_response (bc : BlockCipher) (key raw : List Nat) :
    Except PyError
      (List (List Nat × List (List Nat)) × List (List Nat × List (List Nat))) :=
  let results := parse_qs raw
  match lookupB results (asciiBytes "trandata") with
  | none =>
    .error (.invalidGatewayResponse
      (asciiBytes "Invalid response from the gateway, missing encrypted data"))
  | some tvs =>
    (decrypt_payload bc (tvs.headD []) key).map fun pt =>
      (removeKey results (asciiBytes "trandata"), parse_qs pt)

/-- Merge step of `get_result`: decrypted fields are added only when the
cleartext mapping does not already bind the name. -/
def mergeStep (d : List (List Nat × List Nat)) (kv : List Nat × List (List Nat)) :
    List (List Nat × List Nat) :=
  if (lookupB d kv.1).isSome then d else d ++ [(kv.1, kv.2.headD [])]

/-- `Gateway.get_result(response)`: first value of every cleartext field,
then the decrypted fields that do not collide. -/
def get_result (bc : BlockCipher) (key raw : List Nat) :
    Except PyError (List (List Nat × List Nat)) :=
  (parse_response bc key raw).map fun pr =>
    pr.2.foldl mergeStep (pr.1.map fun kv => (kv.1, kv.2.headD []))

/-- Contiguous-sublist test, used to state that an error message names a
field. -/
def containsSeq (pat : List Nat) : List Nat → Bool
  | [] => pat = []
  | c :: rest => pat.isPrefixOf (c :: rest) ∨ containsSeq pat rest

/-! ### Concrete inputs for evaluating the model -/

/-- A 16-byte key (a valid AES-128 key, and a valid 16-byte IV). -/
def key16 : List Nat := asciiBytes "0123456789abcdef"

/-- A 24-byte key: a valid AES-192 key size, but not a valid CBC IV. -/
def key24 : List Nat := asciiBytes "kkkkkkkkkkkkkkkkkkkkkkkk"

/-- A 32-byte key: a valid AES-256 key size, but not a valid CBC IV. -/
def key32 : List Nat := asciiBytes "kkkkkkkkkkkkkkkkkkkkkkkkkkkkkkkk"

/-- The four tags `Gateway.__init__` reads from the terminal document. -/
def requiredKeys : List (List Nat) :=
  [asciiBytes "password", asciiBytes "resourceKey", asciiBytes "id", asciiBytes "webaddress"]

/-- A fully configured gateway instance with both callback URLs set. -/
def gwEx : Gateway :=
  ⟨asciiBytes "USA", asciiBytes "414", asciiBytes "10.5", asciiBytes "pw", key16,
   asciiBytes "T001", asciiBytes "https://gw.example.com", some (asciiBytes "123"),
   [], [], [], [], [],
   some (asciiBytes "https://example.com/response"),
   some (asciiBytes "https://example.com/error")⟩

/-- The same gateway before `response_url` has been set. -/
def gwUnset : Gateway := { gwEx with response_url := none }

/-- A complete terminal configuration document. -/
def termEx : List (List Nat × List Nat) :=
  [(asciiBytes "password", asciiBytes "pw"), (asciiBytes "resourceKey", key16),
   (asciiBytes "id", asciiBytes "T001"),
   (asciiBytes "webaddress", asciiBytes "https://gw.example.com")]

/-- Encrypted `trandata` value whose plaintext is `foo=2`. -/
def c6td : List Nat := (encrypt_payload idCipher (asciiBytes "foo=2") key16).toOption.getD []

/-- Callback with cleartext `foo=1` and a decrypted payload binding `foo=2`. -/
def c6raw : List Nat := asciiBytes "foo=1&trandata=" ++ c6td

/-- Encrypted `trandata` value whose plaintext binds `bar` twice. -/
def c10td : List Nat :=
  (encrypt_payload idCipher (asciiBytes "bar=3&bar=4") key16).toOption.getD []

/-- Callback that binds `foo` twice in cleartext and `bar` twice inside the
encrypted payload. -/
def c10raw : List Nat := asciiBytes "foo=1&foo=2&trandata=" ++ c10td

/-! ### Round-trip lemmas for the payload cipher -/

theorem hexVal_hexDigit : ∀ n, n < 16 → hexVal (hexDigit n) = some n := by decide

theorem unhexPairs_hexlify (l : List Nat) (h : ∀ x ∈ l, x < 256) :
    unhexPairs (hexlify l) = .ok l := by
  induction l with
  | nil => rfl
  | cons a t ih =>
    have ha : a < 256 := h a (by simp)
    have h1 : a / 16 < 16 := by omega
    have h2 : a % 16 < 16 := by omega
    simp only [hexlify, List.foldr_cons]
    show unhexPairs (hexDigit (a / 16) :: hexDigit (a % 16) :: hexlify t) = _
    simp only [unhexPairs, hexVal_hexDigit _ h1, hexVal_hexDigit _ h2,
      ih (fun x hx => h x (by simp [hx]))]
    have : 16 * (a / 16) + a % 16 = a := by omega
    simp [Except.map, this]

theorem hexlify_length (l : List Nat) : (hexlify l).length = 2 * l.length := by
  induction l with
  | nil => rfl
  | cons a t ih =>
    show (hexDigit (a / 16) :: hexDigit (a % 16) :: hexlify t).length = _
    simp only [List.length_cons, ih, List.length_cons]
    omega

theorem unhexlify_hexlify (l : List Nat) (h : ∀ x ∈ l, x < 256) :
    unhexlify (hexlify l) = .ok l := by
  have hl := hexlify_length l
  simp only [unhexlify, hl]
  rw [if_neg (by omega)]
  exact unhexPairs_hexlify l h

theorem getLastD_concat {l : List Nat} {x : Nat} : (l ++ [x]).getLastD 0 = x := by
  induction l with
  | nil => rfl
  | cons a t ih => cases t <;> simp_all [List.getLastD]

theorem unpadB_padB (p : List Nat) : unpadB (padB p 16) 16 = .ok p := by
  set n := 16 - p.length % 16 with hn
  have hmod : p.length % 16 < 16 := Nat.mod_lt _ (by omega)
  have hn1 : 1 ≤ n := by omega
  have hn16 : n ≤ 16 := by omega
  have hlen : (padB p 16).length = p.length + n := by
    simp [padB, ← hn]
  have hlenmod : (padB p 16).length % 16 = 0 := by
    rw [hlen]; omega
  have hlast : (padB p 16).getLastD 0 = n := by
    have hcount : n = (n - 1) + 1 := by omega
    have hrep : List.replicate n n = List.replicate (n - 1) n ++ [n] := by
      nth_rewrite 1 [hcount]
      exact List.replicate_succ' _ _
    have : padB p 16 = (p ++ List.replicate (n - 1) n) ++ [n] := by
      simp only [padB, ← hn, hrep, List.append_assoc]
    rw [this, getLastD_concat]
  have hdrop : (padB p 16).drop ((padB p 16).length - n) = List.replicate n n := by
    rw [hlen, Nat.add_sub_cancel]
    show (p ++ List.replicate n n).drop p.length = _
    conv_lhs => rw [← List.take_append_drop p.length (p ++ List.replicate n n)]
    simp [List.drop_left]
  have htake : (padB p 16).take ((padB p 16).length - n) = p := by
    rw [hlen, Nat.add_sub_cancel]
    exact List.take_left p _
  rw [unpadB]
  rw [if_neg (by omega)]
  rw [if_neg (by simp [hlenmod])]
  simp only [hlast]
  rw [if_neg (by rw [hlen]; omega)]
  rw [if_neg (by simp [hdrop])]
  rw [htake]

theorem xorB_length {a b : List Nat} : (xorB a b).length = min a.length b.length := by
  simp [xorB]

theorem xorB_cancel : ∀ (a b : List Nat), a.length = b.length → xorB a (xorB a b) = b
  | [], [], _ => rfl
  | x :: xs, y :: ys, h => by
    simp only [xorB, List.zipWith_cons_cons]
    have := xorB_cancel xs ys (by simpa using h)
    simp only [xorB] at this
    simp [this, Nat.xor_cancel_left]
  | [], _ :: _, h => by simp at h
  | _ :: _, [], h => by simp at h

theorem xorB_lt_256 {a b : List Nat} (ha : ∀ x ∈ a, x < 256) (hb : ∀ x ∈ b, x < 256) :
    ∀ x ∈ xorB a b, x < 256 := by
  induction a generalizing b with
  | nil => simp [xorB]
  | cons x xs ih =>
    cases b with
    | nil => simp [xorB]
    | cons y ys =>
      intro z hz
      simp only [xorB, List.zipWith_cons_cons, List.mem_cons] at hz
      rcases hz with h | h
      · subst h
        have h1 : x < 2 ^ 8 := ha x (by simp)
        have h2 : y < 2 ^ 8 := hb y (by simp)
        calc x ^^^ y < 2 ^ 8 := Nat.xor_lt_two_pow h1 h2
        _ = 256 := by norm_num
      · exact ih (fun u hu => ha u (by simp [hu])) (fun u hu => hb u (by simp [hu])) z h

theorem toBlocksF_nil (f : Nat) : toBlocksF f [] = [] := by
  cases f <;> rfl

/-- Fuel does not matter once it covers the list length. -/
theorem toBlocksF_congr (f1 : Nat) : ∀ (f2 : Nat) (l : List Nat),
    l.length ≤ f1 → l.length ≤ f2 → toBlocksF f1 l = toBlocksF f2 l := by
  induction f1 with
  | zero =>
    intro f2 l h1 _
    cases l with
    | nil => rw [toBlocksF_nil, toBlocksF_nil]
    | cons a t => simp at h1
  | succ f ih =>
    intro f2 l h1 h2
    cases l with
    | nil => rw [toBlocksF_nil, toBlocksF_nil]
    | cons a t =>
      cases f2 with
      | zero => simp at h2
      | succ f2' =>
        simp only [toBlocksF]
        congr 1
        exact ih f2' ((a :: t).drop 16)
          (by simp at h1 ⊢; omega) (by simp at h2 ⊢; omega)

theorem toBlocks_append16 (b r : List Nat) (hb : b.length = 16) :
    toBlocks (b ++ r) = b :: toBlocks r := by
  cases b with
  | nil => simp at hb
  | cons a t =>
    have hlen : ((a :: t) ++ r).length = (15 + r.length) + 1 := by
      simp only [List.length_append, hb]
      omega
    show toBlocksF ((a :: t) ++ r).length ((a :: t) ++ r) = _
    rw [hlen]
    show ((a :: t) ++ r).take 16 :: toBlocksF (15 + r.length) (((a :: t) ++ r).drop 16) = _
    rw [List.take_left' hb, List.drop_left' hb]
    congr 1
    exact toBlocksF_congr _ _ r (by omega) (by omega)

theorem toBlocks_flatten16 (bs : List (List Nat)) (h : ∀ b ∈ bs, b.length = 16) :
    toBlocks bs.flatten = bs := by
  induction bs with
  | nil => rfl
  | cons b t ih =>
    rw [List.flatten_cons, toBlocks_append16 b _ (h b (by simp))]
    rw [ih (fun x hx => h x (by simp [hx]))]

theorem flatten_toBlocksF (fuel : Nat) : ∀ (l : List Nat), l.length ≤ fuel →
    (toBlocksF fuel l).flatten = l := by
  induction fuel with
  | zero =>
    intro l h
    cases l with
    | nil => rfl
    | cons a t => simp at h
  | succ f ih =>
    intro l h
    cases l with
    | nil => rfl
    | cons a t =>
      simp only [toBlocksF, List.flatten_cons]
      rw [ih ((a :: t).drop 16) (by simp at h ⊢; omega)]
      exact List.take_append_drop _ _

theorem flatten_toBlocks (l : List Nat) : (toBlocks l).flatten = l :=
  flatten_toBlocksF l.length l (Nat.le_refl _)

theorem toBlocks_all16 (fuel : Nat) : ∀ (l : List Nat), l.length ≤ fuel →
    l.length % 16 = 0 → ∀ b ∈ toBlocksF fuel l, b.length = 16 := by
  induction fuel with
  | zero =>
    intro l hl _ b hb
    cases l with
    | nil => rw [toBlocksF_nil] at hb; simp at hb
    | cons a t => simp at hl
  | succ f ih =>
    intro l hf hmod b hb
    cases l with
    | nil => rw [toBlocksF_nil] at hb; simp at hb
    | cons a t =>
      have hlen16 : 16 ≤ (a :: t).length := by
        have h0 : (a :: t).length ≠ 0 := by simp
        omega
      simp only [toBlocksF, List.mem_cons] at hb
      rcases hb with hb | hb
      · subst hb
        simp only [List.length_take]
        omega
      · exact ih ((a :: t).drop 16)
          (by simp at hf ⊢; omega)
          (by simp only [List.length_drop]; omega) b hb

/-! CBC chaining invariants under the abstract block-cipher hypotheses. -/

section CbcLemmas

variable (bc : BlockCipher) (key : List Nat)

theorem cbcEncAux_all16
    (hlen : ∀ b, b.length = 16 → (bc.encB key b).length = 16) :
    ∀ (bs : List (List Nat)) (prev : List Nat), prev.length = 16 →
      (∀ b ∈ bs, b.length = 16) → ∀ c ∈ cbcEncAux bc key prev bs, c.length = 16
  | [], _, _, _ => by simp [cbcEncAux]
  | b :: bs, prev, hprev, hbs => by
    intro c hc
    have hxb : (xorB prev b).length = 16 := by
      rw [xorB_length, hprev, hbs b (by simp)]; rfl
    have henc : (bc.encB key (xorB prev b)).length = 16 := hlen _ hxb
    simp only [cbcEncAux, List.mem_cons] at hc
    rcases hc with hc | hc
    · subst hc; exact henc
    · exact cbcEncAux_all16 hlen bs _ henc (fun x hx => hbs x (by simp [hx])) c hc

theorem cbcEncAux_range
    (hlen : ∀ b, b.length = 16 → (bc.encB key b).length = 16)
    (hrng : ∀ b, b.length = 16 → (∀ x ∈ b, x < 256) → ∀ x ∈ bc.encB key b, x < 256) :
    ∀ (bs : List (List Nat)) (prev : List Nat), prev.length = 16 → (∀ x ∈ prev, x < 256) →
      (∀ b ∈ bs, b.length = 16) → (∀ b ∈ bs, ∀ x ∈ b, x < 256) →
      ∀ c ∈ cbcEncAux bc key prev bs, ∀ x ∈ c, x < 256
  | [], _, _, _, _, _ => by simp [cbcEncAux]
  | b :: bs, prev, hprev, hprev256, hbs, hbs256 => by
    intro c hc
    have hxb : (xorB prev b).length = 16 := by
      rw [xorB_length, hprev, hbs b (by simp)]; rfl
    have hxb256 : ∀ x ∈ xorB prev b, x < 256 :=
      xorB_lt_256 hprev256 (hbs256 b (by simp))
    have henc : (bc.encB key (xorB prev b)).length = 16 := hlen _ hxb
    have henc256 : ∀ x ∈ bc.encB key (xorB prev b), x < 256 := hrng _ hxb hxb256
    simp only [cbcEncAux, List.mem_cons] at hc
    rcases hc with hc | hc
    · subst hc; exact henc256
    · exact cbcEncAux_range hlen hrng bs _ henc henc256
        (fun x hx => hbs x (by simp [hx])) (fun x hx => hbs256 x (by simp [hx])) c hc

theorem cbcDecAux_cbcEncAux
    (hinv : ∀ b, b.length = 16 → bc.decB key (bc.encB key b) = b)
    (hlen : ∀ b, b.length = 16 → (bc.encB key b).length = 16) :
    ∀ (bs : List (List Nat)) (prev : List Nat), prev.length = 16 →
      (∀ b ∈ bs, b.length = 16) →
      cbcDecAux bc key prev (cbcEncAux bc key prev bs) = bs
  | [], _, _, _ => rfl
  | b :: bs, prev, hprev, hbs => by
    have hb16 : b.length = 16 := hbs b (by simp)
    have hxb : (xorB prev b).length = 16 := by rw [xorB_length, hprev, hb16]; rfl
    simp only [cbcEncAux, cbcDecAux]
    rw [hinv _ hxb]
    congr 1
    · exact xorB_cancel prev b (by omega)
    · exact cbcDecAux_cbcEncAux hinv hlen bs _ (hlen _ hxb)
        (fun x hx => hbs x (by simp [hx]))

end CbcLemmas

theorem flatten_length16 (bs : List (List Nat)) (h : ∀ b ∈ bs, b.length = 16) :
    bs.flatten.length = 16 * bs.length := by
  induction bs with
  | nil => rfl
  | cons b t ih =>
    simp only [List.flatten_cons, List.length_append, List.length_cons]
    rw [h b (by simp), ih (fun x hx => h x (by simp [hx]))]
    ring

theorem padB_mod16 (p : List Nat) : (padB p 16).length % 16 = 0 := by
  have : p.length % 16 < 16 := Nat.mod_lt _ (by omega)
  simp [padB]
  omega

theorem padB_lt_256 (p : List Nat) (h : ∀ x ∈ p, x < 256) :
    ∀ x ∈ padB p 16, x < 256 := by
  intro x hx
  simp only [padB, List.mem_append, List.mem_replicate] at hx
  rcases hx with hx | hx
  · exact h x hx
  · omega

theorem bind_ok_py {α β : Type} (x : α) (f : α → Except PyError β) :
    (Except.ok x : Except PyError α) >>= f = f x := rfl

theorem bind_error_py {α β : Type} (e : PyError) (f : α → Except PyError β) :
    (Except.error e : Except PyError α) >>= f = Except.error e := rfl

/-- Encryption with a 16-byte key succeeds and produces the hex encoding of
the CBC ciphertext. -/
theorem encrypt_payload_ok (bc : BlockCipher) (plain key : List Nat)
    (hk : key.length = 16) :
    encrypt_payload bc plain key =
      .ok (hexlify (cbcEncAux bc key key (toBlocks (padB plain 16))).flatten) := by
  have h1 : aesNewCbc key.length key.length = .ok () := by rw [hk]; rfl
  have h2 : cbcEncrypt bc key key (padB plain 16) =
      .ok (cbcEncAux bc key key (toBlocks (padB plain 16))).flatten := by
    rw [cbcEncrypt, if_neg (by simp [padB_mod16 plain])]
  simp only [encrypt_payload, h1, h2, bind_ok_py]
  rfl

/-- C1 (amended): for every plaintext and every key whose UTF-8 encoding is
exactly 16 bytes, `decrypt_payload(encrypt_payload(p, k), k)` returns `p`;
the statement holds for any block cipher whose keyed block maps are
mutually inverse, length-preserving and byte-valued on 16-byte blocks (the
properties AES has).  The claim's 24- and 32-byte cases fail - see the C1
counterexample - because the key doubles as the CBC IV, which must be 16
bytes. -/
theorem c1_roundtrip_16byte_key (bc : BlockCipher) (plain key : List Nat)
    (hk : key.length = 16)
    (hkb : ∀ c ∈ key, c < 256) (hpb : ∀ c ∈ plain, c < 256)
    (hinv : ∀ b, b.length = 16 → bc.decB key (bc.encB key b) = b)
    (hlen : ∀ b, b.length = 16 → (bc.encB key b).length = 16)
    (hrng : ∀ b, b.length = 16 → (∀ x ∈ b, x < 256) → ∀ x ∈ bc.encB key b, x < 256) :
    (encrypt_payload bc plain key).bind (fun ct => decrypt_payload bc ct key) = .ok plain := by
  have hpdmod : (padB plain 16).length % 16 = 0 := padB_mod16 plain
  have hpd256 : ∀ x ∈ padB plain 16, x < 256 := padB_lt_256 plain hpb
  have hblocks16 : ∀ b ∈ toBlocks (padB plain 16), b.length = 16 :=
    toBlocks_all16 _ _ (Nat.le_refl _) hpdmod
  have hblocks256 : ∀ b ∈ toBlocks (padB plain 16), ∀ x ∈ b, x < 256 := by
    intro b hb x hx
    exact hpd256 x (by rw [← flatten_toBlocks (padB plain 16)]; exact List.mem_flatten.2 ⟨b, hb, hx⟩)
  set ctB := cbcEncAux bc key key (toBlocks (padB plain 16)) with hctB
  have hctB16 : ∀ c ∈ ctB, c.length = 16 :=
    cbcEncAux_all16 bc key hlen _ key hk hblocks16
  have hct256 : ∀ x ∈ ctB.flatten, x < 256 := by
    intro x hx
    obtain ⟨c, hc, hxc⟩ := List.mem_flatten.1 hx
    exact cbcEncAux_range bc key hlen hrng _ key hk hkb hblocks16 hblocks256 c hc x hxc
  have hctmod : ctB.flatten.length % 16 = 0 := by
    rw [flatten_length16 ctB hctB16]
    omega
  rw [encrypt_payload_ok bc plain key hk, ← hctB]
  show decrypt_payload bc (hexlify ctB.flatten) key = .ok plain
  have hunhex : unhexlify (hexlify ctB.flatten) = .ok ctB.flatten :=
    unhexlify_hexlify _ hct256
  have haes : aesNewCbc key.length key.length = .ok () := by rw [hk]; rfl
  have hdec : cbcDecrypt bc key key ctB.flatten =
      .ok (cbcDecAux bc key key (toBlocks ctB.flatten)).flatten := by
    rw [cbcDecrypt, if_neg (fun hne => hne hctmod)]
  simp only [decrypt_payload, hunhex, haes, hdec, bind_ok_py]
  rw [toBlocks_flatten16 ctB hctB16, hctB,
    cbcDecAux_cbcEncAux bc key hinv hlen _ key hk hblocks16,
    flatten_toBlocks, unpadB_padB]

/-! ### Lookup lemmas for the callback-result merge -/

theorem lookupB_append_left {α : Type} {d1 d2 : List (List Nat × α)} {k : List Nat} {v : α}
    (h : lookupB d1 k = some v) : lookupB (d1 ++ d2) k = some v := by
  induction d1 with
  | nil => simp [lookupB] at h
  | cons kv rest ih =>
    simp only [lookupB] at h ⊢
    by_cases hk : kv.1 = k
    · simpa [hk] using h
    · rw [if_neg hk] at h ⊢
      exact ih h

theorem lookupB_append_right {α : Type} {d1 d2 : List (List Nat × α)} {k : List Nat}
    (h : lookupB d1 k = none) : lookupB (d1 ++ d2) k = lookupB d2 k := by
  induction d1 with
  | nil => simp
  | cons kv rest ih =>
    simp only [lookupB] at h ⊢
    by_cases hk : kv.1 = k
    · simp [hk] at h
    · rw [if_neg hk] at h ⊢
      exact ih h

/-- `mergeStep` never changes an existing binding. -/
theorem foldl_mergeStep_preserve {k v} :
    ∀ (dec : List (List Nat × List (List Nat))) (d : List (List Nat × List Nat)),
      lookupB d k = some v → lookupB (dec.foldl mergeStep d) k = some v
  | [], _, h => h
  | kv :: rest, d, h => by
    simp only [List.foldl_cons]
    apply foldl_mergeStep_preserve rest
    rw [mergeStep]
    by_cases hc : (lookupB d kv.1).isSome
    · rw [if_pos hc]; exact h
    · rw [if_neg hc]; exact lookupB_append_left h

/-- A decrypted key absent from the cleartext mapping ends up bound to the
first value of its occurrence list. -/
theorem foldl_mergeStep_new {k : List Nat} {w : List Nat} {ws : List (List Nat)} :
    ∀ (dec : List (List Nat × List (List Nat))) (d : List (List Nat × List Nat)),
      lookupB d k = none → lookupB dec k = some (w :: ws) →
      lookupB (dec.foldl mergeStep d) k = some w
  | [], _, _, hdec => by simp [lookupB] at hdec
  | kv :: rest, d, hd, hdec => by
    simp only [List.foldl_cons]
    by_cases hk : kv.1 = k
    · have hvals : kv.2 = w :: ws := by
        simp only [lookupB, if_pos hk] at hdec
        exact Option.some.inj hdec
      have hstep : mergeStep d kv = d ++ [(kv.1, w)] := by
        rw [mergeStep, if_neg (by simp [hk, hd]), hvals]
        rfl
      apply foldl_mergeStep_preserve rest
      rw [hstep, lookupB_append_right hd]
      simp [lookupB, hk]
    · have hdec' : lookupB rest k = some (w :: ws) := by
        simpa only [lookupB, if_neg hk] using hdec
      have hd' : lookupB (mergeStep d kv) k = none := by
        rw [mergeStep]
        by_cases hc : (lookupB d kv.1).isSome
        · rw [if_pos hc]; exact hd
        · rw [if_neg hc, lookupB_append_right hd]
          simp [lookupB, hk]
      exact foldl_mergeStep_new rest _ hd' hdec'

/-- Taking heads of the occurrence lists commutes with lookup. -/
theorem lookupB_map_headD {d : List (List Nat × List (List Nat))} {k : List Nat}
    {vs : List (List Nat)} (h : lookupB d k = some vs) :
    lookupB (d.map fun kv => (kv.1, kv.2.headD [])) k = some (vs.headD []) := by
  induction d with
  | nil => simp [lookupB] at h
  | cons kv rest ih =>
    simp only [lookupB, List.map_cons] at h ⊢
    by_cases hk : kv.1 = k
    · rw [if_pos hk] at h ⊢
      rw [Option.some.inj h]
    · rw [if_neg hk] at h ⊢
      exact ih h

theorem lookupB_map_headD_none {d : List (List Nat × List (List Nat))} {k : List Nat}
    (h : lookupB d k = none) :
    lookupB (d.map fun kv => (kv.1, kv.2.headD [])) k = none := by
  induction d with
  | nil => rfl
  | cons kv rest ih =>
    simp only [lookupB, List.map_cons] at h ⊢
    by_cases hk : kv.1 = k
    · simp [hk] at h
    · rw [if_neg hk] at h ⊢
      exact ih h

/-- `dict.pop` leaves the other keys bound as before. -/
theorem lookupB_removeKey {α : Type} {d : List (List Nat × α)} {k tk : List Nat}
    (hne : k ≠ tk) : lookupB (removeKey d tk) k = lookupB d k := by
  induction d with
  | nil => rfl
  | cons kv rest ih =>
    by_cases htk : kv.1 = tk
    · have hk : ¬ kv.1 = k := fun h => hne (h ▸ htk)
      have h1 : removeKey (kv :: rest) tk = removeKey rest tk := by
        simp [removeKey, List.filter, htk]
      rw [h1, ih]
      simp only [lookupB, if_neg hk]
    · have h1 : removeKey (kv :: rest) tk = kv :: removeKey rest tk := by
        simp [removeKey, List.filter, htk]
      rw [h1]
      simp only [lookupB]
      by_cases hk : kv.1 = k
      · rw [if_pos hk, if_pos hk]
      · rw [if_neg hk, if_neg hk, ih]

/-- Shape of a successful `get_result` run: the cleartext mapping without
`trandata`, reduced to first values, merged with the decrypted mapping. -/
theorem get_result_ok (bc : BlockCipher) (key raw td pt : List Nat) (tds : List (List Nat))
    (htd : lookupB (parse_qs raw) (asciiBytes "trandata") = some (td :: tds))
    (hdec : decrypt_payload bc td key = .ok pt) :
    get_result bc key raw = .ok ((parse_qs pt).foldl mergeStep
      ((removeKey (parse_qs raw) (asciiBytes "trandata")).map fun kv => (kv.1, kv.2.headD []))) := by
  rw [get_result, parse_response]
  rw [htd]
  simp only [List.headD_cons, hdec, Except.map]

/-! ### Claim theorems -/

/-- C1 counterexample: with a 24-byte key - a valid AES key size, as the
claim allows - the round-trip does not return the plaintext: `AES.new`
rejects the key reused as IV and `encrypt_payload` raises `ValueError`
before any encryption happens.  A 32-byte key fails identically. -/
theorem c1_counterexample :
    (encrypt_payload idCipher (asciiBytes "a") key24).bind
        (fun ct => decrypt_payload idCipher ct key24) =
      .error (.valueError (asciiBytes "Incorrect IV length (it must be 16 bytes long)"))
    ∧ (encrypt_payload idCipher (asciiBytes "a") key24).bind
        (fun ct => decrypt_payload idCipher ct key24) ≠ .ok (asciiBytes "a")
    ∧ (encrypt_payload idCipher (asciiBytes "a") key32).bind
        (fun ct => decrypt_payload idCipher ct key32) ≠ .ok (asciiBytes "a") := by
  refine ⟨rfl, ?_, ?_⟩ <;> intro h <;> exact Except.noConfusion h

/-- C1 witness: the amended round-trip at a concrete 16-byte key and
plaintext, with the identity block cipher discharging the cipher
hypotheses. -/
theorem c1_roundtrip_16byte_key_witness :
    (encrypt_payload idCipher (asciiBytes "amt=10.5") key16).bind
      (fun ct => decrypt_payload idCipher ct key16) = .ok (asciiBytes "amt=10.5") :=
  c1_roundtrip_16byte_key idCipher (asciiBytes "amt=10.5") key16 rfl
    (by decide) (by decide) (fun _ _ => rfl) (fun _ h => h) (fun _ _ h => h)

/-- C2: with both callback URLs set, `generate_purchase_request()` does not
return the documented redirect URL: `_get_redirect_url` hands
`action.value` (the int 1) to `_build_payload`, which evaluates `.value`
on it and raises `AttributeError`. -/
theorem c2_generate_purchase_request_raises :
    generate_purchase_request idCipher gwEx =
      .error (.attributeError (asciiBytes "\x27int\x27 object has no attribute \x27value\x27")) := rfl

/-- C3: when `response_url` or `error_url` is unset (`None`) or empty, the
`check_if_set` decorator raises before the body runs (the spec's
`PreconditionError`, realized as Python `AttributeError`); its message
names both required URL fields, hence every unset one; and the instance
state is unchanged (the method performs no attribute assignment). -/
theorem c3_precondition_failure (bc : BlockCipher) (g : Gateway)
    (h : g.response_url = none ∨ g.response_url = some [] ∨
         g.error_url = none ∨ g.error_url = some []) :
    generate_purchase_request bc g = .error (.attributeError precondMsg)
    ∧ containsSeq (asciiBytes "response_url") precondMsg = true
    ∧ containsSeq (asciiBytes "error_url") precondMsg = true
    ∧ (generate_purchase_request_st bc g).1 = g := by
  have hfalse : ¬ (truthyOpt g.response_url ∧ truthyOpt g.error_url) := by
    rcases h with h | h | h | h <;> rw [h] <;> simp [truthyOpt]
  refine ⟨?_, by decide, by decide, rfl⟩
  rw [generate_purchase_request, if_neg hfalse]

/-- C3 witness: the precondition failure evaluated on a concrete gateway
whose `response_url` is still `None`. -/
theorem c3_precondition_failure_witness :
    generate_purchase_request idCipher gwUnset = .error (.attributeError precondMsg)
    ∧ containsSeq (asciiBytes "response_url") precondMsg = true
    ∧ containsSeq (asciiBytes "error_url") precondMsg = true
    ∧ (generate_purchase_request_st idCipher gwUnset).1 = gwUnset :=
  c3_precondition_failure idCipher gwUnset (Or.inl rfl)

/-- C4: a supplied tracking id is discarded by `__init__` (which only
assigns `self.tracking_id` when the argument is `None`), so construction
succeeds with the attribute unset and building the purchase parameters
raises `AttributeError` instead of using the supplied value. -/
theorem c4_supplied_tracking_id_lost :
    ∃ g, Gateway.init 1700000000 (asciiBytes "en") (asciiBytes "414") (asciiBytes "10.5")
        termEx (some (asciiBytes "TRACK1")) = .ok g
      ∧ g.tracking_id = none
      ∧ build_param_dict g 1 =
          .error (.attributeError
            (asciiBytes "\x27Gateway\x27 object has no attribute \x27tracking_id\x27")) :=
  ⟨_, rfl, rfl, rfl⟩

/-- C5: `sanitize` cannot strip anything - `str.translate(None,
FILTER_CHARS)` is the Python 2 calling convention and raises `TypeError`
on every input under Python 3, contradicting the function's own
docstring. -/
theorem c5_sanitize_raises_typeerror :
    sanitize (asciiBytes "hello world") =
      .error (.typeError (asciiBytes "translate() takes exactly one argument (2 given)")) := rfl

/-- C6: whenever the callback cleartext and the decrypted `trandata`
payload both bind a key, `get_result` binds that key to the first
cleartext value: decrypted fields are only added for keys absent from the
cleartext mapping. -/
theorem c6_cleartext_precedence (bc : BlockCipher) (key raw td pt k v1 : List Nat)
    (tds vs ws : List (List Nat)) (w : List Nat)
    (htd : lookupB (parse_qs raw) (asciiBytes "trandata") = some (td :: tds))
    (hdec : decrypt_payload bc td key = .ok pt)
    (hk : k ≠ asciiBytes "trandata")
    (hcl : lookupB (parse_qs raw) k = some (v1 :: vs))
    (_hdk : lookupB (parse_qs pt) k = some (w :: ws)) :
    ∃ res, get_result bc key raw = .ok res ∧ lookupB res k = some v1 := by
  refine ⟨_, get_result_ok bc key raw td pt tds htd hdec, ?_⟩
  apply foldl_mergeStep_preserve
  have hrk : lookupB (removeKey (parse_qs raw) (asciiBytes "trandata")) k = some (v1 :: vs) := by
    rw [lookupB_removeKey hk]
    exact hcl
  have := lookupB_map_headD hrk
  simpa using this

/-- C6 witness: cleartext `foo=1` wins over decrypted `foo=2` on a concrete
callback. -/
theorem c6_cleartext_precedence_witness :
    ∃ res, get_result idCipher key16 c6raw = .ok res
      ∧ lookupB res (asciiBytes "foo") = some (asciiBytes "1") :=
  c6_cleartext_precedence idCipher key16 c6raw c6td (asciiBytes "foo=2")
    (asciiBytes "foo") (asciiBytes "1") [] [] [] (asciiBytes "2")
    rfl rfl (by decide) rfl rfl

/-- C7: a callback whose query string parses without a `trandata` field
makes `get_result` fail with `InvalidGatewayResponse`. -/
theorem c7_missing_trandata (bc : BlockCipher) (key raw : List Nat)
    (h : lookupB (parse_qs raw) (asciiBytes "trandata") = none) :
    get_result bc key raw =
      .error (.invalidGatewayResponse
        (asciiBytes "Invalid response from the gateway, missing encrypted data")) := by
  rw [get_result, parse_response]
  rw [h]
  rfl

/-- C7 witness: a concrete callback with no `trandata` field. -/
theorem c7_missing_trandata_witness :
    get_result idCipher key16 (asciiBytes "foo=1") =
      .error (.invalidGatewayResponse
        (asciiBytes "Invalid response from the gateway, missing encrypted data")) :=
  c7_missing_trandata idCipher key16 (asciiBytes "foo=1") rfl

/-- C8: when the decrypted terminal document lacks one of the required tags
`password`, `resourceKey`, `id`, `webaddress`, construction fails (the
spec's `MalformedConfig`, realized as Python `KeyError` naming the first
missing tag in access order) and no `Gateway` instance is produced. -/
theorem c8_missing_config_key (now : Nat) (lang curr amt : List Nat)
    (terminal : List (List Nat × List Nat)) (tid : Option (List Nat))
    (h : ∃ k ∈ requiredKeys, lookupB terminal k = none) :
    ∃ k ∈ requiredKeys, lookupB terminal k = none ∧
      Gateway.init now lang curr amt terminal tid = .error (.keyError k) := by
  by_cases h1 : lookupB terminal (asciiBytes "password") = none
  · refine ⟨asciiBytes "password", by simp [requiredKeys], h1, ?_⟩
    simp only [Gateway.init, dictGet, h1, bind_error_py]
  · obtain ⟨v1, hv1⟩ := Option.ne_none_iff_exists'.1 h1
    by_cases h2 : lookupB terminal (asciiBytes "resourceKey") = none
    · refine ⟨asciiBytes "resourceKey", by simp [requiredKeys], h2, ?_⟩
      simp only [Gateway.init, dictGet, hv1, h2, bind_ok_py, bind_error_py]
    · obtain ⟨v2, hv2⟩ := Option.ne_none_iff_exists'.1 h2
      by_cases h3 : lookupB terminal (asciiBytes "id") = none
      · refine ⟨asciiBytes "id", by simp [requiredKeys], h3, ?_⟩
        simp only [Gateway.init, dictGet, hv1, hv2, h3, bind_ok_py, bind_error_py]
      · obtain ⟨v3, hv3⟩ := Option.ne_none_iff_exists'.1 h3
        by_cases h4 : lookupB terminal (asciiBytes "webaddress") = none
        · refine ⟨asciiBytes "webaddress", by simp [requiredKeys], h4, ?_⟩
          simp only [Gateway.init, dictGet, hv1, hv2, hv3, h4, bind_ok_py, bind_error_py]
        · exfalso
          obtain ⟨k, hk, hknone⟩ := h
          simp only [requiredKeys, List.mem_cons, List.not_mem_nil, or_false] at hk
          rcases hk with rfl | rfl | rfl | rfl
          · exact h1 hknone
          · exact h2 hknone
          · exact h3 hknone
          · exact h4 hknone

/-- C8 witness: a terminal document missing `resourceKey` (and more) fails
with `KeyError` on a required tag. -/
theorem c8_missing_config_key_witness :
    ∃ k ∈ requiredKeys, lookupB [(asciiBytes "password", asciiBytes "pw")] k = none ∧
      Gateway.init 5 (asciiBytes "en") (asciiBytes "414") (asciiBytes "10.5")
        [(asciiBytes "password", asciiBytes "pw")] none = .error (.keyError k) :=
  c8_missing_config_key 5 (asciiBytes "en") (asciiBytes "414") (asciiBytes "10.5")
    [(asciiBytes "password", asciiBytes "pw")] none
    ⟨asciiBytes "resourceKey", by decide, rfl⟩

/-- C9 counterexample: `validate_gw_url("http://[")` neither fails with
`InvalidUrl` nor returns the input: `urlparse` itself raises
`ValueError("Invalid IPv6 URL")` on the unbalanced bracket in the
authority, although the scheme is http and the query is empty. -/
theorem c9_counterexample :
    validate_gw_url (asciiBytes "http://[") =
      .error (.valueError (asciiBytes "Invalid IPv6 URL"))
    ∧ validate_gw_url (asciiBytes "http://[") ≠ .ok (asciiBytes "http://[") := by
  refine ⟨rfl, ?_⟩
  intro h
  exact Except.noConfusion h

/-- C9 (amended): for every input the URL parser accepts - in particular
the authority's square brackets must be balanced - `validate_gw_url` fails
with `InvalidUrl` when the parsed query is non-empty, fails with
`InvalidUrl` when the scheme is neither http nor https, and otherwise
returns the input unchanged; inputs the parser rejects propagate its
`ValueError` instead. -/
theorem c9_validate_url_amended (s : List Nat) (u : SplitResult)
    (hu : urlsplitB s = .ok u) :
    (u.query ≠ [] → ∃ m, validate_gw_url s = .error (.invalidUrl m))
    ∧ (¬ (u.scheme = asciiBytes "http" ∨ u.scheme = asciiBytes "https") →
        ∃ m, validate_gw_url s = .error (.invalidUrl m))
    ∧ ((u.scheme = asciiBytes "http" ∨ u.scheme = asciiBytes "https") → u.query = [] →
        validate_gw_url s = .ok s) := by
  refine ⟨?_, ?_, ?_⟩
  · intro hq
    by_cases hs : u.scheme = asciiBytes "http" ∨ u.scheme = asciiBytes "https"
    · exact ⟨_, by simp only [validate_gw_url, hu]; rw [if_pos hs, if_neg hq]⟩
    · exact ⟨_, by simp only [validate_gw_url, hu]; rw [if_neg hs]⟩
  · intro hs
    exact ⟨_, by simp only [validate_gw_url, hu]; rw [if_neg hs]⟩
  · intro hs hq
    simp only [validate_gw_url, hu]
    rw [if_pos hs, if_pos hq]

/-- C9 witness: a well-formed https URL with no query passes through
unchanged. -/
theorem c9_validate_url_amended_witness :
    validate_gw_url (asciiBytes "https://example.com/cb") =
      .ok (asciiBytes "https://example.com/cb") :=
  (c9_validate_url_amended (asciiBytes "https://example.com/cb")
      ⟨asciiBytes "https", asciiBytes "example.com", asciiBytes "/cb", [], []⟩
      rfl).2.2 (Or.inr rfl) rfl

/-- C10: on a successfully parsed callback, any field bound more than once
in the cleartext query string is bound to its first cleartext value, and
any field absent from the cleartext but bound more than once inside the
decrypted payload is bound to its first decrypted value. -/
theorem c10_first_occurrence_wins (bc : BlockCipher) (key raw td pt : List Nat)
    (tds : List (List Nat))
    (htd : lookupB (parse_qs raw) (asciiBytes "trandata") = some (td :: tds))
    (hdec : decrypt_payload bc td key = .ok pt) :
    (∀ k v vs, k ≠ asciiBytes "trandata" → lookupB (parse_qs raw) k = some (v :: vs) →
      ∃ res, get_result bc key raw = .ok res ∧ lookupB res k = some v)
    ∧ (∀ k w ws, lookupB (parse_qs raw) k = none → lookupB (parse_qs pt) k = some (w :: ws) →
      ∃ res, get_result bc key raw = .ok res ∧ lookupB res k = some w) := by
  constructor
  · intro k v vs hk hcl
    refine ⟨_, get_result_ok bc key raw td pt tds htd hdec, ?_⟩
    apply foldl_mergeStep_preserve
    have hrk : lookupB (removeKey (parse_qs raw) (asciiBytes "trandata")) k = some (v :: vs) := by
      rw [lookupB_removeKey hk]
      exact hcl
    have := lookupB_map_headD hrk
    simpa using this
  · intro k w ws hnone hdk
    have hk : k ≠ asciiBytes "trandata" := by
      intro hkc
      rw [hkc, htd] at hnone
      exact Option.noConfusion hnone
    refine ⟨_, get_result_ok bc key raw td pt tds htd hdec, ?_⟩
    apply foldl_mergeStep_new _ _ _ hdk
    apply lookupB_map_headD_none
    rw [lookupB_removeKey hk]
    exact hnone

/-- C10 witness: `foo=1&foo=2` in cleartext yields `foo == "1"`, and a
decrypted payload `bar=3&bar=4` yields `bar == "3"`. -/
theorem c10_first_occurrence_wins_witness :
    (∃ res, get_result idCipher key16 c10raw = .ok res
      ∧ lookupB res (asciiBytes "foo") = some (asciiBytes "1"))
    ∧ (∃ res, get_result idCipher key16 c10raw = .ok res
      ∧ lookupB res (asciiBytes "bar") = some (asciiBytes "3")) :=
  ⟨(c10_first_occurrence_wins idCipher key16 c10raw c10td (asciiBytes "bar=3&bar=4")
      [] rfl rfl).1 (asciiBytes "foo") (asciiBytes "1") [asciiBytes "2"] (by decide) rfl,
   (c10_first_occurrence_wins idCipher key16 c10raw c10td (asciiBytes "bar=3&bar=4")
      [] rfl rfl).2 (asciiBytes "bar") (asciiBytes "3") [asciiBytes "4"] rfl rfl⟩

end PyIPay
